import Mathlib

/-!
Shallow embedding of the makekodu authoring core (tile catalog, constraint
merge, suggestion engine, rule/page/brain data model, serialization codec),
translated from the TypeScript source in the `kodu` namespace.

Modelling conventions:
* JavaScript `undefined`-able tile slots become `Option TileDefn`; the
  elements of the `filters`/`modifiers` chains are likewise `Option TileDefn`
  because `RuleDefn.FromObj` can place an unresolved (undefined) catalog
  lookup into a chain.
* A JavaScript object used as a record becomes an association list
  `JObj = List (String × JVal)`; property read is first-match lookup
  (object keys are unique, so first-match agrees with JS).
* Operations that would throw a `TypeError` in JS (reading `.tid` or
  `.constraints` off an `undefined` tile) return `none` in an `Option`
  result.
* The JS `handling` object is an association list in which a later entry
  shadows an earlier one (`hget` reads the last binding for a key); the JS
  assignment `dst.handling[k] = src.handling[k]` is then list append.
-/

namespace kodu

inductive TileType where
  | SENSOR
  | FILTER
  | ACTUATOR
  | MODIFIER
deriving DecidableEq, Repr

/-- Scalar values allowed in a `handling` map (`string | number | boolean`). -/
inductive HVal where
  | str (s : String)
  | num (n : Int)
  | bool (b : Bool)
deriving DecidableEq, Repr

/-- JavaScript truthiness of a `handling` scalar. -/
def HVal.truthy : HVal → Bool
  | .str s => s ≠ ""
  | .num n => n ≠ 0
  | .bool b => b

/-- A `handling` map: later entries shadow earlier ones. -/
abbrev Handling := List (String × HVal)

/-- Read the surviving (last-written) binding for a key. -/
def hget (h : Handling) (k : String) : Option HVal :=
  (List.find? (fun p => p.1 = k) (List.reverse h)).map (fun p => p.2)

/-- The `allow` / `disallow` sub-record of `Constraints`. -/
structure Allowance where
  tiles : Option (List String) := none
  categories : Option (List String) := none
deriving DecidableEq, Repr

/-- The optional-field `Constraints` block attached to a tile.
(The two catalog entries that misspell `provides` as `produces` contribute
a field the engine never reads; it is dropped here as dead data.) -/
structure Constraints where
  provides : Option (List String) := none
  requires : Option (List String) := none
  allow : Option Allowance := none
  disallow : Option Allowance := none
  handling : Option Handling := none
deriving DecidableEq

/-- A tile definition. `hidden` is a JS optional boolean read only for
truthiness, so it is a `Bool` defaulting to `false`. -/
structure TileDefn where
  type : TileType
  tid : String
  name : String
  weight : Option Nat := none
  hidden : Bool := false
  category : Option String := none
  constraints : Option Constraints := none
  phase : Option String := none
  priority : Option Int := none
deriving DecidableEq

/-- The empty constraints block, for catalog entries written `constraints: {}`. -/
def noConstraints : Constraints := {}

def RuleCondition.DEFAULT : String := "RC0"

/-- One authored rule. Slots and chain elements are `Option` because the
unguarded decoder can leave them `undefined`. -/
structure RuleDefn where
  condition : String
  sensor : Option TileDefn
  actuator : Option TileDefn
  filters : List (Option TileDefn)
  modifiers : List (Option TileDefn)
deriving DecidableEq

/-- Source `new RuleDefn()`. -/
def mkRuleDefn : RuleDefn :=
  { condition := RuleCondition.DEFAULT, sensor := none, actuator := none,
    filters := [], modifiers := [] }

/-- Source `RuleDefn.prototype.clone` (slice-copies the chains). -/
def RuleDefn.clone (r : RuleDefn) : RuleDefn :=
  { condition := r.condition, sensor := r.sensor, actuator := r.actuator,
    filters := r.filters, modifiers := r.modifiers }

/-- Source `RuleDefn.prototype.isEmpty`: `!this.sensor && !this.actuator`. -/
def RuleDefn.isEmpty (r : RuleDefn) : Bool :=
  r.sensor.isNone && r.actuator.isNone

structure PageDefn where
  rules : List RuleDefn
deriving DecidableEq

def mkPageDefn : PageDefn := { rules := [] }

def PageDefn.clone (p : PageDefn) : PageDefn :=
  { rules := p.rules.map RuleDefn.clone }

/-- Source `PageDefn.prototype.trim`: pop trailing rules while the last rule is
empty.  The while-pop loop is rendered as dropping the longest all-empty
suffix. -/
def PageDefn.trim (p : PageDefn) : PageDefn :=
  { rules := ((p.rules.reverse.dropWhile (fun r => r.isEmpty)).reverse) }

/-- Source `PageDefn.prototype.deleteRuleAt`. -/
def PageDefn.deleteRuleAt (p : PageDefn) (index : Int) : PageDefn :=
  if 0 ≤ index ∧ index < p.rules.length then
    { rules := p.rules.eraseIdx index.toNat }
  else p

structure BrainDefn where
  pages : List PageDefn
deriving DecidableEq

/-- Source `new BrainDefn()`: `[0,1,2,3,4].map(n => new PageDefn())`. -/
def mkBrainDefn : BrainDefn :=
  { pages := [0, 1, 2, 3, 4].map (fun _ => mkPageDefn) }

def BrainDefn.clone (b : BrainDefn) : BrainDefn :=
  { pages := b.pages.map PageDefn.clone }

def BrainDefn.trim (b : BrainDefn) : BrainDefn :=
  { pages := b.pages.map PageDefn.trim }

/-- The `tiles.sensors` partition of the frozen catalog, in declaration
order (JS string-keyed object iteration order). -/
def sensorsList : List TileDefn := [
  { type := .SENSOR, tid := "S1", name := "Always", phase := some "pre", hidden := true },
  { type := .SENSOR, tid := "S2", name := "See", phase := some "pre", weight := some 1,
    constraints := some
      { provides := some ["target"],
        allow := some { categories := some ["subject", "direct-subject", "distance", "expression"] },
        disallow := some { tiles := some ["F6"] } } },
  { type := .SENSOR, tid := "S3", name := "Bump", phase := some "pre", weight := some 2,
    constraints := some
      { provides := some ["target"],
        allow := some { categories := some ["subject", "direct-subject", "expression"] },
        disallow := some { tiles := some ["F6"] } } },
  { type := .SENSOR, tid := "S4", name := "DPad", phase := some "pre",
    constraints := some
      { provides := some ["input", "direction"],
        allow := some { categories := some ["dpad-direction", "button-event"] } } },
  { type := .SENSOR, tid := "S5", name := "A", phase := some "pre",
    constraints := some
      { provides := some ["input"],
        allow := some { categories := some ["button-event"] } } },
  { type := .SENSOR, tid := "S6", name := "B", phase := some "pre",
    constraints := some
      { provides := some ["input"],
        allow := some { categories := some ["button-event"] } } },
  { type := .SENSOR, tid := "S7", name := "Timer", phase := some "post",
    constraints := some { allow := some { categories := some ["timespan"] } } }]

/-- The `tiles.filters` partition.  The duplicated `express_none` object
literal key collapses to a single property in JS, so it appears once. -/
def filtersList : List TileDefn := [
  { type := .FILTER, tid := "F1", name := "Kodu", category := some "subject", priority := some 10,
    constraints := some
      { provides := some ["target"],
        disallow := some { categories := some ["subject", "direct-subject"] } } },
  { type := .FILTER, tid := "F2", name := "Tree", category := some "subject", priority := some 10,
    constraints := some
      { provides := some ["target"],
        disallow := some { categories := some ["subject", "direct-subject"] } } },
  { type := .FILTER, tid := "F3", name := "Apple", category := some "subject", priority := some 10,
    constraints := some
      { provides := some ["target"],
        disallow := some { categories := some ["subject", "direct-subject"] } } },
  { type := .FILTER, tid := "F4", name := "nearby", category := some "distance", priority := some 10,
    constraints := some
      { provides := some ["target"],
        disallow := some { tiles := some ["F5"] },
        handling := some [("max-count", .num 3)] } },
  { type := .FILTER, tid := "F5", name := "far away", category := some "distance", priority := some 10,
    constraints := some
      { provides := some ["target"],
        disallow := some { tiles := some ["F4"] },
        handling := some [("max-count", .num 3)] } },
  { type := .FILTER, tid := "F8", name := "short", category := some "timespan", priority := some 10,
    constraints := some noConstraints },
  { type := .FILTER, tid := "F9", name := "long", category := some "timespan", priority := some 10,
    constraints := some noConstraints },
  { type := .FILTER, tid := "F10", name := "none", category := some "expression", priority := some 10,
    constraints := some { disallow := some { categories := some ["expression"] } } },
  { type := .FILTER, tid := "F11", name := "happy", category := some "expression", priority := some 10,
    constraints := some { disallow := some { categories := some ["expression"] } } },
  { type := .FILTER, tid := "F12", name := "angry", category := some "expression", priority := some 10,
    constraints := some { disallow := some { categories := some ["expression"] } } },
  { type := .FILTER, tid := "F13", name := "heart", category := some "expression", priority := some 10,
    constraints := some { disallow := some { categories := some ["expression"] } } },
  { type := .FILTER, tid := "F14", name := "sad", category := some "expression", priority := some 10,
    constraints := some { disallow := some { categories := some ["expression"] } } }]

/-- The `tiles.actuators` partition. -/
def actuatorsList : List TileDefn := [
  { type := .ACTUATOR, tid := "A1", name := "Move", category := some "movement",
    constraints := some { allow := some { categories := some ["speed", "direction", "direct-object"] } } },
  { type := .ACTUATOR, tid := "A2", name := "Switch page",
    constraints := some { allow := some { categories := some ["page"] } } },
  { type := .ACTUATOR, tid := "A3", name := "Express",
    constraints := some { allow := some { categories := some ["expression"] } } },
  { type := .ACTUATOR, tid := "A4", name := "Boom", hidden := true,
    constraints := some { allow := some { categories := some ["direct-object"] } } },
  { type := .ACTUATOR, tid := "A5", name := "Vanish",
    constraints := some { allow := some { categories := some ["direct-object"] } } },
  { type := .ACTUATOR, tid := "A6", name := "Keep in view",
    constraints := some { allow := some { categories := some ["direct-object"] } } }]

/-- The `tiles.modifiers` partition.  The `me`/`it` entries spell a
`produces` field the `Constraints` interface does not declare and the
engine never reads; that dead field is dropped. -/
def modifiersList : List TileDefn := [
  { type := .MODIFIER, tid := "M1", name := "me", category := some "direct-object", priority := some 10,
    constraints := some
      { requires := some ["target"],
        disallow := some { categories := some ["object", "direct-object"] } } },
  { type := .MODIFIER, tid := "M2", name := "it", category := some "direct-object", priority := some 10,
    constraints := some
      { requires := some ["target"],
        disallow := some { categories := some ["object", "direct-object"] } } },
  { type := .MODIFIER, tid := "M3", name := "Kodu", category := some "object", priority := some 10,
    constraints := some { disallow := some { categories := some ["object", "direct-object"] } } },
  { type := .MODIFIER, tid := "M4", name := "Tree", category := some "object", priority := some 10,
    constraints := some { disallow := some { categories := some ["object", "direct-object"] } } },
  { type := .MODIFIER, tid := "M5", name := "Apple", category := some "object", priority := some 10,
    constraints := some { disallow := some { categories := some ["object", "direct-object"] } } },
  { type := .MODIFIER, tid := "M6", name := "quickly", category := some "speed", priority := some 10,
    constraints := some
      { disallow := some { tiles := some ["M7"] },
        handling := some [("max-count", .num 3)] } },
  { type := .MODIFIER, tid := "M7", name := "slowly", category := some "speed", priority := some 10,
    constraints := some
      { disallow := some { tiles := some ["M6"] },
        handling := some [("max-count", .num 3)] } },
  { type := .MODIFIER, tid := "M8", name := "toward", category := some "direction", priority := some 10,
    constraints := some
      { requires := some ["target"],
        disallow := some { tiles := some ["M1"], categories := some ["direction"] } } },
  { type := .MODIFIER, tid := "M9", name := "away", category := some "direction", priority := some 10,
    constraints := some
      { requires := some ["target"],
        disallow := some { tiles := some ["M1"], categories := some ["direction"] } } },
  { type := .MODIFIER, tid := "M10", name := "avoid", category := some "direction", priority := some 20,
    constraints := some
      { requires := some ["target"],
        disallow := some { tiles := some ["M1"], categories := some ["direction"] } } },
  { type := .MODIFIER, tid := "M11", name := "page 1", category := some "page", priority := some 10,
    constraints := some { handling := some [("terminal", .bool true)] } },
  { type := .MODIFIER, tid := "M12", name := "page 2", category := some "page", priority := some 10,
    constraints := some { handling := some [("terminal", .bool true)] } },
  { type := .MODIFIER, tid := "M13", name := "page 3", category := some "page", priority := some 10,
    constraints := some { handling := some [("terminal", .bool true)] } },
  { type := .MODIFIER, tid := "M14", name := "page 4", category := some "page", priority := some 10,
    constraints := some { handling := some [("terminal", .bool true)] } },
  { type := .MODIFIER, tid := "M15", name := "page 5", category := some "page", priority := some 10,
    constraints := some { handling := some [("terminal", .bool true)] } },
  { type := .MODIFIER, tid := "M16", name := "none", category := some "expression", priority := some 10,
    constraints := some { disallow := some { categories := some ["expression"] } } },
  { type := .MODIFIER, tid := "M17", name := "happy", category := some "expression", priority := some 10,
    constraints := some { disallow := some { categories := some ["expression"] } } },
  { type := .MODIFIER, tid := "M18", name := "angry", category := some "expression", priority := some 10,
    constraints := some { disallow := some { categories := some ["expression"] } } },
  { type := .MODIFIER, tid := "M19", name := "heart", category := some "expression", priority := some 10,
    constraints := some { disallow := some { categories := some ["expression"] } } },
  { type := .MODIFIER, tid := "M20", name := "sad", category := some "expression", priority := some 10,
    constraints := some { disallow := some { categories := some ["expression"] } } }]

/-- Catalog lookup `tiles.<partition>[key]`. -/
def findTile (db : List TileDefn) (key : String) : Option TileDefn :=
  db.find? (fun t => t.tid = key)

/-- A JS value as handled by the codec. -/
inductive JVal where
  | str (s : String)
  | num (n : Int)
  | bool (b : Bool)
  | null
  | arr (xs : List JVal)
  | obj (fields : List (String × JVal))

/-- A JS object used as a record. -/
abbrev JObj := List (String × JVal)

/-- Property read `o[k]` (object keys are unique, so first match agrees
with JS). -/
def jget (o : JObj) (k : String) : Option JVal :=
  (List.find? (fun p => p.1 = k) o).map (fun p => p.2)

/-- Removal of a property, for comparing "field absent" decodes. -/
def jremove (o : JObj) (k : String) : JObj :=
  List.filter (fun p => p.1 ≠ k) o

def JVal.isStr : JVal → Bool
  | .str _ => true
  | _ => false

def JVal.isArr : JVal → Bool
  | .arr _ => true
  | _ => false

/-- Sequence a list of optional values; `none` when any element would be
`undefined` (the point where JS dereferences would throw). -/
def seqO {α : Type} : List (Option α) → Option (List α)
  | [] => some []
  | none :: _ => none
  | some a :: rest => (seqO rest).map (fun as => a :: as)

/-- Source `tiles.<partition>[elem]` where `elem` is an arbitrary decoded
value.  Only the string form is modelled as a catalog hit; JS would first
coerce any other value to a property key (a number to its decimal string,
an array to its comma-joined coercion — so `["F1"]` would coerce to
`"F1"` and hit the catalog), and those coercion hits are not modelled
here.  No theorem's statement reaches this function with a non-string
element: the round-trip theorems only feed it strings produced by
`toObj`, and the wrong-shape theorem applies the identical function to
both of its records. -/
def lookupTileV (db : List TileDefn) : JVal → Option TileDefn
  | .str s => findTile db s
  | _ => none

/-- The `C` entry of a rule record: deleted when the condition string is
falsy, i.e. empty. -/
def condEntries (r : RuleDefn) : JObj :=
  if r.condition = "" then [] else [("C", JVal.str r.condition)]

/-- The `S` entry: `this.sensor ? this.sensor.tid : undefined`, deleted
when falsy (absent sensor, or empty tid). -/
def sensorEntries (r : RuleDefn) : JObj :=
  match r.sensor with
  | some t => if t.tid = "" then [] else [("S", JVal.str t.tid)]
  | none => []

/-- The `A` entry, symmetric to `S`. -/
def actuatorEntries (r : RuleDefn) : JObj :=
  match r.actuator with
  | some t => if t.tid = "" then [] else [("A", JVal.str t.tid)]
  | none => []

/-- The `F`/`M` entry: the chain's tids, deleted when the list is empty. -/
def chainEntries (key : String) (ts : List TileDefn) : JObj :=
  if ts.isEmpty then [] else [(key, JVal.arr (ts.map (fun t => JVal.str t.tid)))]

/-- The record `RuleDefn.prototype.toObj` builds once both chains have
been read off (`fs`/`ms` are the chains' tiles), keys in source order
C, S, A, F, M. -/
def ruleEntries (r : RuleDefn) (fs ms : List TileDefn) : JObj :=
  condEntries r ++ sensorEntries r ++ actuatorEntries r
    ++ chainEntries "F" fs ++ chainEntries "M" ms

/-- Source `RuleDefn.prototype.toObj`.  Returns `none` when a chain holds an
`undefined` entry (JS would throw reading `.tid`). -/
def RuleDefn.toObj (r : RuleDefn) : Option JObj :=
  match seqO r.filters, seqO r.modifiers with
  | some fs, some ms => some (ruleEntries r fs ms)
  | _, _ => none

/-- Source `RuleDefn.FromObj` on an object input.  A field of the wrong shape
fails its `typeof` / `Array.isArray` test and leaves the default. -/
def RuleDefn.FromObj (o : JObj) : RuleDefn :=
  { condition :=
      match jget o "C" with
      | some (.str s) => s
      | _ => RuleCondition.DEFAULT
    sensor :=
      match jget o "S" with
      | some (.str s) => findTile sensorsList s
      | _ => none
    actuator :=
      match jget o "A" with
      | some (.str s) => findTile actuatorsList s
      | _ => none
    filters :=
      match jget o "F" with
      | some (.arr xs) => xs.map (fun v => lookupTileV filtersList v)
      | _ => []
    modifiers :=
      match jget o "M" with
      | some (.arr xs) => xs.map (fun v => lookupTileV modifiersList v)
      | _ => [] }

/-- Source `RuleDefn.FromObj` on an arbitrary decoded element (page decoding
maps it over the `R` array).  `none` models the two error paths: a `null`
element throws a TypeError reading `obj["C"]`, and a string element is
handed to `JSON.parse` (a throwing, unmodelled computation).  Any other
non-object (number, boolean, array) reads every property as `undefined`
and decodes as the default rule. -/
def RuleDefn.FromObjV : JVal → Option RuleDefn
  | .obj fields => some (RuleDefn.FromObj fields)
  | .null => none
  | .str _ => none
  | _ => some (RuleDefn.FromObj [])

/-- Source `PageDefn.prototype.toObj`. -/
def PageDefn.toObj (p : PageDefn) : Option JObj :=
  (seqO (p.rules.map RuleDefn.toObj)).map
    (fun objs => if objs.isEmpty then [] else [("R", JVal.arr (objs.map JVal.obj))])

/-- Source `PageDefn.FromObj` on an object input; `none` when decoding an
`R` element throws (the exception propagates out of the `map`). -/
def PageDefn.FromObj (o : JObj) : Option PageDefn :=
  match jget o "R" with
  | some (.arr xs) => (seqO (xs.map RuleDefn.FromObjV)).map (fun rs => { rules := rs })
  | _ => some { rules := [] }

/-- Source `PageDefn.FromObj` on an arbitrary decoded element, with the same
`null` / string error paths as `RuleDefn.FromObjV`. -/
def PageDefn.FromObjV : JVal → Option PageDefn
  | .obj fields => PageDefn.FromObj fields
  | .null => none
  | .str _ => none
  | _ => PageDefn.FromObj []

/-- Source `BrainDefn.prototype.toObj`: the `P` key is always emitted. -/
def BrainDefn.toObj (b : BrainDefn) : Option JObj :=
  (seqO (b.pages.map PageDefn.toObj)).map
    (fun objs => [("P", JVal.arr (objs.map JVal.obj))])

/-- Source `BrainDefn.FromObj`: a fresh 5-page brain whose pages are replaced
only when `P` is an array (an array, even empty, is truthy, so
`obj["P"] &&` never rejects one); `none` when decoding a `P` element
throws. -/
def BrainDefn.FromObj (o : JObj) : Option BrainDefn :=
  match jget o "P" with
  | some (.arr xs) => (seqO (xs.map PageDefn.FromObjV)).map (fun ps => { pages := ps })
  | _ => some mkBrainDefn

/-- Sort weight `tile.weight || 100` (JS: a weight of `0` is falsy and also
falls back to 100). -/
def wt (t : TileDefn) : Nat :=
  match t.weight with
  | some w => if w = 0 then 100 else w
  | none => 100

/-- The comparator `(a, b) => wa - wb`: a stable ascending sort by `wt`. -/
def sortTiles (ts : List TileDefn) : List TileDefn :=
  ts.mergeSort (fun a b => wt a ≤ wt b)

/-- The accumulator built by `mkConstraints()`: a `Constraints` value with
every field populated (the merge target always has this shape). -/
structure CAcc where
  provides : List String
  requires : List String
  allowTiles : List String
  allowCategories : List String
  disallowTiles : List String
  disallowCategories : List String
  handling : Handling
deriving DecidableEq

/-- Source `mkConstraints()`. -/
def mkConstraints : CAcc :=
  { provides := [], requires := [], allowTiles := [], allowCategories := [],
    disallowTiles := [], disallowCategories := [], handling := [] }

/-- Source `mergeConstraints(dst, src)`: list fields are appended; `handling`
entries of `src` are written over `dst` key-by-key (append + last-binding
read). -/
def mergeConstraints (dst : CAcc) (src : Option Constraints) : CAcc :=
  match src with
  | none => dst
  | some s =>
    { provides := dst.provides ++ s.provides.getD [],
      requires := dst.requires ++ s.requires.getD [],
      allowTiles := dst.allowTiles ++ (s.allow.bind Allowance.tiles).getD [],
      allowCategories := dst.allowCategories ++ (s.allow.bind Allowance.categories).getD [],
      disallowTiles := dst.disallowTiles ++ (s.disallow.bind Allowance.tiles).getD [],
      disallowCategories := dst.disallowCategories ++ (s.disallow.bind Allowance.categories).getD [],
      handling := dst.handling ++ (s.handling.getD []) }

/-- The `existing` array: `for (let i = 0; i < index; ++i)
existing.push(rule.<chain>[i])`; an out-of-range read is `undefined`. -/
def collectExisting (chain : List (Option TileDefn)) (index : Nat) : List (Option TileDefn) :=
  (List.range index).map (fun i => (chain.getD i none))

/-- The value of `t.constraints.handling["terminal"]`, when every step of
that path is present. -/
def terminalVal (t : TileDefn) : Option HVal :=
  match t.constraints with
  | none => none
  | some c =>
    match c.handling with
    | none => none
    | some h => hget h "terminal"

/-- The truthiness test `last.constraints && last.constraints.handling &&
last.constraints.handling["terminal"]`. -/
def isTerminal (t : TileDefn) : Bool :=
  match terminalVal t with
  | some v => v.truthy
  | none => false

/-- Step 1 of the compatible-set filter: `requires` against accumulated
`provides` (an explicit empty `requires` array passes the truthiness guard
and then matches nothing, so it never passes). -/
def requiresCheck (c : CAcc) (t : TileDefn) : Bool :=
  match t.constraints with
  | none => true
  | some tc =>
    match tc.requires with
    | none => true
    | some reqs => reqs.any (fun req => c.provides.any (fun pro => pro = req))

/-- Step 2: the allow whitelist. -/
def allowCheck (c : CAcc) (t : TileDefn) : Bool :=
  c.allowCategories.any (fun cat => t.category = some cat)
    || c.allowTiles.any (fun x => x = t.tid)

/-- Step 3: the disallow blacklist. -/
def disallowCheck (c : CAcc) (t : TileDefn) : Bool :=
  !(c.disallowCategories.any (fun cat => t.category = some cat))
    && !(c.disallowTiles.any (fun x => x = t.tid))

/-- Source `Language.getCompatibleSet`. -/
def getCompatibleSet (all : List TileDefn) (c : CAcc) : List TileDefn :=
  ((all.filter (fun t => requiresCheck c t)).filter (fun t => allowCheck c t)).filter
    (fun t => disallowCheck c t)

/-- Source `Language.getSensorSuggestions` (aka `suggestSensors`). -/
def getSensorSuggestions (_rule : RuleDefn) : List TileDefn :=
  sortTiles (sensorsList.filter (fun t => !t.hidden))

/-- Source `Language.getActuatorSuggestions` (aka `suggestActuators`). -/
def getActuatorSuggestions (_rule : RuleDefn) : List TileDefn :=
  sortTiles (actuatorsList.filter (fun t => !t.hidden))

/-- The constraint set `getFilterSuggestions` accumulates for position
`index`: sensor constraints, then each existing filter's constraints, in
placement order.  `none` when the merge loop would dereference an
`undefined` chain entry. -/
def filterAccum (rule : RuleDefn) (index : Nat) : Option CAcc :=
  (seqO (collectExisting rule.filters index)).map
    (fun ex => ex.foldl (fun c t => mergeConstraints c t.constraints)
      (mergeConstraints mkConstraints (rule.sensor.bind (fun t => t.constraints))))

/-- The constraint set `getModifierSuggestions` accumulates: actuator
constraints, then sensor constraints, then each existing modifier's. -/
def modifierAccum (rule : RuleDefn) (index : Nat) : Option CAcc :=
  (seqO (collectExisting rule.modifiers index)).map
    (fun ex => ex.foldl (fun c t => mergeConstraints c t.constraints)
      (mergeConstraints
        (mergeConstraints mkConstraints (rule.actuator.bind (fun t => t.constraints)))
        (rule.sensor.bind (fun t => t.constraints))))

/-- Source `Language.getFilterSuggestions` (aka `suggestFilters`).  `none` models
the `TypeError` thrown when the terminal check or the merge loop reads a
property off an `undefined` chain entry. -/
def getFilterSuggestions (rule : RuleDefn) (index : Nat) : Option (List TileDefn) :=
  let all := sortTiles (filtersList.filter (fun t => !t.hidden))
  match (collectExisting rule.filters index).getLast? with
  | some none => none
  | some (some last) =>
    if isTerminal last then some []
    else (filterAccum rule index).map (fun c => getCompatibleSet all c)
  | none => (filterAccum rule index).map (fun c => getCompatibleSet all c)

/-- Source `Language.getModifierSuggestions` (aka `suggestModifiers`). -/
def getModifierSuggestions (rule : RuleDefn) (index : Nat) : Option (List TileDefn) :=
  let all := sortTiles (modifiersList.filter (fun t => !t.hidden))
  match (collectExisting rule.modifiers index).getLast? with
  | some none => none
  | some (some last) =>
    if isTerminal last then some []
    else (modifierAccum rule index).map (fun c => getCompatibleSet all c)
  | none => (modifierAccum rule index).map (fun c => getCompatibleSet all c)

/-- Source `Language.ensureValid`. -/
def ensureValid (rule : RuleDefn) : RuleDefn :=
  let r1 := if rule.sensor.isNone then { rule with filters := [] } else rule
  if r1.actuator.isNone then { r1 with modifiers := [] } else r1

/-- Modelled from the spec (§4.2): merge a list of constraint sources, in
order, into the identity accumulator. -/
def mergeAll (srcs : List (Option Constraints)) : CAcc :=
  srcs.foldl mergeConstraints mkConstraints

/-- Modelled from the spec (§4.2): the accumulated constraint set for a
prospective modifier insertion point — identity accumulator, then the
actuator's constraints, then the sensor's, then each existing modifier's
in placement order up to (not including) the index. -/
def specModifierAccum (rule : RuleDefn) (index : Nat) : Option CAcc :=
  (seqO (collectExisting rule.modifiers index)).map
    (fun ex => mergeAll
      ([rule.actuator.bind (fun t => t.constraints), rule.sensor.bind (fun t => t.constraints)]
        ++ ex.map (fun t => t.constraints)))

/-- An optional tile slot either absent or resolving, through the catalog
partition `db`, back to the very tile it holds. -/
def slotOk (db : List TileDefn) : Option TileDefn → Bool
  | some t => decide (findTile db t.tid = some t)
  | none => true

/-- A chain entry: present and resolving back to itself. -/
def entryOk (db : List TileDefn) : Option TileDefn → Bool
  | some t => decide (findTile db t.tid = some t)
  | none => false

/-- Every tile reference of the rule exists in (and is) its catalog entry. -/
def ruleRefsOk (r : RuleDefn) : Bool :=
  slotOk sensorsList r.sensor && slotOk actuatorsList r.actuator
    && r.filters.all (entryOk filtersList) && r.modifiers.all (entryOk modifiersList)

/-- Reference validity plus a non-empty condition string (the extra premise
the round-trip law needs). -/
def ruleValid (r : RuleDefn) : Bool :=
  decide (r.condition ≠ "") && ruleRefsOk r

def pageValid (p : PageDefn) : Bool :=
  p.rules.all ruleValid

def brainValid (b : BrainDefn) : Bool :=
  b.pages.all pageValid

/-- A brain witnessing that the round-trip law fails without the non-empty
condition premise: one rule whose condition is the (falsy) empty string. -/
def emptyConditionBrain : BrainDefn :=
  { pages := [{ rules := [{ condition := "", sensor := none, actuator := none,
                            filters := [], modifiers := [] }] }] }

/-- A rule with no anchors but populated chains, exercising `ensureValid`. -/
def anchorlessRule : RuleDefn :=
  { condition := "RC0", sensor := none, actuator := none,
    filters := [some { type := .FILTER, tid := "F1", name := "Kodu" }],
    modifiers := [some { type := .MODIFIER, tid := "M3", name := "Kodu" }] }

/-- A tile carrying `handling.terminal = true` (the `page 1` modifier). -/
def terminalTile : TileDefn :=
  { type := .MODIFIER, tid := "M11", name := "page 1", category := some "page",
    priority := some 10,
    constraints := some { handling := some [("terminal", .bool true)] } }

/-- A rule whose two chains both start with a terminal tile. -/
def terminalChainsRule : RuleDefn :=
  { condition := "RC0", sensor := none, actuator := none,
    filters := [some terminalTile], modifiers := [some terminalTile] }

/-- A record in which each of the five rule keys is present with a
wrong-shaped value. -/
def wrongShapedObj : JObj :=
  [("C", .bool true), ("S", .num 3), ("A", .null), ("F", .str "x"), ("M", .obj [])]

/-- A fully-populated rule whose references all resolve in the catalog. -/
def catalogRule : RuleDefn :=
  { condition := "RC0", sensor := findTile sensorsList "S2",
    actuator := findTile actuatorsList "A1",
    filters := [findTile filtersList "F1"],
    modifiers := [findTile modifiersList "M6"] }

def catalogPage : PageDefn := { rules := [catalogRule] }

/-- A 5-page brain holding `catalogRule`, for the round-trip witness. -/
def catalogBrain : BrainDefn :=
  { pages := [catalogPage, mkPageDefn, mkPageDefn, mkPageDefn, mkPageDefn] }

/-! Helper lemmas. -/

theorem seqO_map_some {α : Type} (l : List α) : seqO (l.map some) = some l := by
  induction l with
  | nil => rfl
  | cons a l ih => simp [seqO, ih]

theorem seqO_eq_some {α : Type} : ∀ {l : List (Option α)} {ts : List α},
    seqO l = some ts → l = ts.map some
  | [], ts, h => by
    have h0 : ([] : List α) = ts := Option.some.inj h
    subst h0; rfl
  | none :: l, ts, h => by simp [seqO] at h
  | some a :: l, ts, h => by
    have h1 : (seqO l).map (fun as => a :: as) = some ts := h
    cases hr : seqO l with
    | none => rw [hr] at h1; simp at h1
    | some as =>
      rw [hr] at h1
      have hts : a :: as = ts := Option.some.inj h1
      subst hts
      simp [seqO_eq_some hr]

theorem seqO_isSome {α : Type} {l : List (Option α)} (h : ∀ e ∈ l, e.isSome) :
    (seqO l).isSome := by
  induction l with
  | nil => simp [seqO]
  | cons e l ih =>
    cases e with
    | none => simpa using h none (by simp)
    | some a =>
      have := ih (fun e he => h e (by simp [he]))
      simp only [seqO]
      cases hr : seqO l with
      | none => rw [hr] at this; simp at this
      | some as => simp

theorem collectExisting_getLast (chain : List (Option TileDefn)) (k : Nat) :
    (collectExisting chain (k + 1)).getLast? = some (chain.getD k none) := by
  simp [collectExisting, List.range_succ, List.getLast?_concat]

theorem collectExisting_of_le {chain : List (Option TileDefn)} {index : Nat}
    (h : index ≤ chain.length) : collectExisting chain index = chain.take index := by
  apply List.ext_getElem?
  intro i
  by_cases hi : i < index
  · have hic : i < chain.length := lt_of_lt_of_le hi h
    simp [collectExisting, List.getElem?_take, hi, hic, List.getD,
      List.getElem?_eq_getElem hic]
  · have h1 : ¬ i < (List.range index).length := by simpa using hi
    simp only [collectExisting]
    rw [List.getElem?_eq_none (by simpa using not_lt.mp h1),
      List.getElem?_eq_none (by simp [not_lt.mp hi])]

/-! C7: ensureValid. -/

/-- C7: after `ensureValid(r)`, a sensor-less rule has no filters and an
actuator-less rule has no modifiers; condition, sensor, actuator are
untouched, a chain whose anchor is present is untouched, and a second
application changes nothing. -/
theorem c7_ensureValid (r : RuleDefn) :
    (r.sensor = none → (ensureValid r).filters = []) ∧
    (r.actuator = none → (ensureValid r).modifiers = []) ∧
    (ensureValid r).condition = r.condition ∧
    (ensureValid r).sensor = r.sensor ∧
    (ensureValid r).actuator = r.actuator ∧
    (r.sensor ≠ none → (ensureValid r).filters = r.filters) ∧
    (r.actuator ≠ none → (ensureValid r).modifiers = r.modifiers) ∧
    ensureValid (ensureValid r) = ensureValid r := by
  rcases r with ⟨c, s, a, f, m⟩
  cases s <;> cases a <;> simp [ensureValid]

/-- Witness for C7 at a rule with neither anchor but populated chains. -/
theorem c7_ensureValid_witness :
    (ensureValid anchorlessRule).filters = [] ∧
    (ensureValid anchorlessRule).modifiers = [] := by
  constructor
  · exact (c7_ensureValid anchorlessRule).1 rfl
  · exact (c7_ensureValid anchorlessRule).2.1 rfl

/-! C10: page-count invariant. -/

/-- C10 (amended): the constructor builds exactly 5 pages and clone and
trim preserve a 5-page brain, but `BrainDefn.FromObj` takes the page count
from the `P` array rather than re-establishing the invariant: whenever
every element of an `n`-element `P` decodes without error, the decoded
brain has exactly `n` pages. -/
theorem c10_pageCount :
    mkBrainDefn.pages.length = 5 ∧
    (∀ b : BrainDefn, b.pages.length = 5 →
      b.clone.pages.length = 5 ∧ b.trim.pages.length = 5) ∧
    (∀ (o : JObj) (xs : List JVal) (ps : List PageDefn),
      jget o "P" = some (.arr xs) →
      seqO (xs.map PageDefn.FromObjV) = some ps →
      BrainDefn.FromObj o = some { pages := ps } ∧ ps.length = xs.length) := by
  refine ⟨rfl, fun b hb => ?_, fun o xs ps h hseq => ?_⟩
  · constructor <;> simp [BrainDefn.clone, BrainDefn.trim, hb]
  · refine ⟨by simp [BrainDefn.FromObj, h, hseq], ?_⟩
    have hmap := seqO_eq_some hseq
    have := congrArg List.length hmap
    simpa using this.symm

/-- Counterexample to C10's decode clause as stated over every input: a
one-element `P` holding `null` makes the source throw reading
`obj["R"]` of `null` (modelled `none`), so no 1-page brain is produced. -/
theorem c10_counterexample :
    jget [("P", JVal.arr [JVal.null])] "P" = some (JVal.arr [JVal.null]) ∧
    BrainDefn.FromObj [("P", JVal.arr [JVal.null])] = none :=
  ⟨rfl, rfl⟩

/-- Witness for C10: clone/trim of the fresh brain keep 5 pages, and a
2-element `P` of empty page records decodes to exactly 2 pages. -/
theorem c10_pageCount_witness :
    mkBrainDefn.clone.pages.length = 5 ∧ mkBrainDefn.trim.pages.length = 5 ∧
    BrainDefn.FromObj [("P", JVal.arr [JVal.obj [], JVal.obj []])]
      = some { pages := [{ rules := [] }, { rules := [] }] } ∧
    ([{ rules := [] }, { rules := [] }] : List PageDefn).length = 2 := by
  refine ⟨(c10_pageCount.2.1 mkBrainDefn rfl).1, (c10_pageCount.2.1 mkBrainDefn rfl).2, ?_, ?_⟩
  · exact (c10_pageCount.2.2 [("P", JVal.arr [JVal.obj [], JVal.obj []])]
      [JVal.obj [], JVal.obj []] [{ rules := [] }, { rules := [] }] rfl rfl).1
  · exact (c10_pageCount.2.2 [("P", JVal.arr [JVal.obj [], JVal.obj []])]
      [JVal.obj [], JVal.obj []] [{ rules := [] }, { rules := [] }] rfl rfl).2

/-! C5: terminal short-circuit. -/

/-- C5: when the chain's tile at position `k` carries
`handling.terminal = true`, suggesting at position `k + 1` returns the
empty sequence, for the filter chain and the modifier chain alike. -/
theorem c5_terminal (rule : RuleDefn) (k : Nat) (t : TileDefn)
    (ht : terminalVal t = some (.bool true)) :
    (rule.filters.getD k none = some t → getFilterSuggestions rule (k + 1) = some []) ∧
    (rule.modifiers.getD k none = some t → getModifierSuggestions rule (k + 1) = some []) := by
  have hterm : isTerminal t = true := by simp [isTerminal, ht, HVal.truthy]
  constructor
  · intro hk
    unfold getFilterSuggestions
    rw [collectExisting_getLast, hk]
    simp [hterm]
  · intro hk
    unfold getModifierSuggestions
    rw [collectExisting_getLast, hk]
    simp [hterm]

/-- Witness for C5: a rule whose first filter and first modifier both carry
`handling.terminal = true` suggests nothing at position 1. -/
theorem c5_terminal_witness :
    getFilterSuggestions terminalChainsRule 1 = some [] ∧
    getModifierSuggestions terminalChainsRule 1 = some [] := by
  have h := c5_terminal terminalChainsRule 0 terminalTile rfl
  exact ⟨h.1 rfl, h.2 rfl⟩

/-! C9: chain index bounds. -/

/-- C9: an index beyond the chain length makes the collection loop pick up
missing entries and the terminal check dereference an absent tile (the
modelled `TypeError`, result `none`); for an index at most the chain
length (over a chain of present tiles) the computation is defined. -/
theorem c9_indexBounds (rule : RuleDefn) (index : Nat) :
    (rule.filters.length < index → getFilterSuggestions rule index = none) ∧
    (index ≤ rule.filters.length → (∀ e ∈ rule.filters, e.isSome) →
      (getFilterSuggestions rule index).isSome) ∧
    (rule.modifiers.length < index → getModifierSuggestions rule index = none) ∧
    (index ≤ rule.modifiers.length → (∀ e ∈ rule.modifiers, e.isSome) →
      (getModifierSuggestions rule index).isSome) := by
  refine ⟨fun hgt => ?_, fun hle hall => ?_, fun hgt => ?_, fun hle hall => ?_⟩
  · obtain ⟨k, rfl⟩ : ∃ k, index = k + 1 :=
      ⟨index - 1, (Nat.succ_pred_eq_of_pos (Nat.lt_of_le_of_lt (Nat.zero_le _) hgt)).symm⟩
    unfold getFilterSuggestions
    rw [collectExisting_getLast, List.getD_eq_default _ _ (Nat.le_of_lt_succ hgt)]
  · unfold getFilterSuggestions
    have hsome : (filterAccum rule index).isSome := by
      unfold filterAccum
      rw [collectExisting_of_le hle]
      have := seqO_isSome (fun e he => hall e (List.take_subset index rule.filters he))
      cases hs : seqO (rule.filters.take index) with
      | none => rw [hs] at this; simp at this
      | some ex => simp [hs]
    cases hl : (collectExisting rule.filters index).getLast? with
    | none => simpa using hsome
    | some e =>
      cases e with
      | none =>
        exfalso
        rw [collectExisting_of_le hle] at hl
        have := hall none (List.take_subset _ _ (List.mem_of_getLast?_eq_some hl))
        simp at this
      | some last =>
        by_cases hterm : isTerminal last <;> simp [hterm, hsome]
  · obtain ⟨k, rfl⟩ : ∃ k, index = k + 1 :=
      ⟨index - 1, (Nat.succ_pred_eq_of_pos (Nat.lt_of_le_of_lt (Nat.zero_le _) hgt)).symm⟩
    unfold getModifierSuggestions
    rw [collectExisting_getLast, List.getD_eq_default _ _ (Nat.le_of_lt_succ hgt)]
  · unfold getModifierSuggestions
    have hsome : (modifierAccum rule index).isSome := by
      unfold modifierAccum
      rw [collectExisting_of_le hle]
      have := seqO_isSome (fun e he => hall e (List.take_subset index rule.modifiers he))
      cases hs : seqO (rule.modifiers.take index) with
      | none => rw [hs] at this; simp at this
      | some ex => simp [hs]
    cases hl : (collectExisting rule.modifiers index).getLast? with
    | none => simpa using hsome
    | some e =>
      cases e with
      | none =>
        exfalso
        rw [collectExisting_of_le hle] at hl
        have := hall none (List.take_subset _ _ (List.mem_of_getLast?_eq_some hl))
        simp at this
      | some last =>
        by_cases hterm : isTerminal last <;> simp [hterm, hsome]

/-- Witness for C9: on a one-filter rule, index 2 is out of bounds and
index 1 is defined. -/
theorem c9_indexBounds_witness :
    getFilterSuggestions anchorlessRule 2 = none ∧
    (getFilterSuggestions anchorlessRule 1).isSome := by
  constructor
  · exact (c9_indexBounds anchorlessRule 2).1 (by decide)
  · exact (c9_indexBounds anchorlessRule 1).2.1 (by decide) (by decide)

/-! C6: sensor/actuator suggestion ordering. -/

theorem sortTiles_pairwise (ts : List TileDefn) :
    List.Pairwise (fun a b => wt a ≤ wt b) (sortTiles ts) := by
  have h := @List.sorted_mergeSort TileDefn (fun a b => decide (wt a ≤ wt b))
    (fun a b c hab hbc => by
      simp only [decide_eq_true_eq] at hab hbc ⊢
      exact Nat.le_trans hab hbc)
    (fun a b => by
      simp only [Bool.or_eq_true, decide_eq_true_eq]
      exact Nat.le_total (wt a) (wt b))
    ts
  exact h.imp (fun hab => by simpa using hab)

/-- C6: sensor and actuator suggestions hold no hidden tile and are
non-decreasing in `wt` (weight, defaulting to 100) along the sequence. -/
theorem c6_weightOrder (r : RuleDefn) :
    (getSensorSuggestions r).all (fun t => !t.hidden) = true ∧
    List.Pairwise (fun a b => wt a ≤ wt b) (getSensorSuggestions r) ∧
    (getActuatorSuggestions r).all (fun t => !t.hidden) = true ∧
    List.Pairwise (fun a b => wt a ≤ wt b) (getActuatorSuggestions r) := by
  refine ⟨?_, sortTiles_pairwise _, ?_, sortTiles_pairwise _⟩
  · rw [List.all_eq_true]
    intro t ht
    have hmem : t ∈ List.filter (fun t => !t.hidden) sensorsList := by
      simpa [getSensorSuggestions, sortTiles] using ht
    exact (List.mem_filter.mp hmem).2
  · rw [List.all_eq_true]
    intro t ht
    have hmem : t ∈ List.filter (fun t => !t.hidden) actuatorsList := by
      simpa [getActuatorSuggestions, sortTiles] using ht
    exact (List.mem_filter.mp hmem).2

/-! C3: the allow whitelist. -/

theorem getCompatibleSet_empty_allow (all : List TileDefn) (c : CAcc)
    (h1 : c.allowCategories = []) (h2 : c.allowTiles = []) :
    getCompatibleSet all c = [] := by
  unfold getCompatibleSet
  have hfalse : ∀ t, allowCheck c t = false := fun t => by simp [allowCheck, h1, h2]
  simp [hfalse]

theorem getLast?_map_some {α : Type} (ex : List α) :
    ∀ {e : Option α}, (ex.map some).getLast? = some e → ∃ last, e = some last := by
  intro e hl
  have hmem := List.mem_of_getLast?_eq_some hl
  obtain ⟨last, _, rfl⟩ := List.mem_map.mp hmem
  exact ⟨last, rfl⟩

/-- C3: a candidate passes the allow check exactly when its category is in
the accumulated `allow.categories` or its identifier is in `allow.tiles`;
consequently both suggestion entry points return the empty sequence
whenever the accumulated allow lists are both empty. -/
theorem c3_allowCheck :
    (∀ (c : CAcc) (t : TileDefn),
      allowCheck c t = true ↔
        ((∃ cat ∈ c.allowCategories, t.category = some cat) ∨ t.tid ∈ c.allowTiles)) ∧
    (∀ (rule : RuleDefn) (index : Nat) (acc : CAcc),
      filterAccum rule index = some acc → acc.allowCategories = [] → acc.allowTiles = [] →
      getFilterSuggestions rule index = some []) ∧
    (∀ (rule : RuleDefn) (index : Nat) (acc : CAcc),
      modifierAccum rule index = some acc → acc.allowCategories = [] → acc.allowTiles = [] →
      getModifierSuggestions rule index = some []) := by
  refine ⟨fun c t => ?_, fun rule index acc hacc h1 h2 => ?_, fun rule index acc hacc h1 h2 => ?_⟩
  · simp [allowCheck, List.any_eq_true]
  · obtain ⟨ex, hex, hfold⟩ := Option.map_eq_some'.mp hacc
    have hcollect := seqO_eq_some hex
    unfold getFilterSuggestions
    rw [hcollect]
    cases hl : (ex.map some).getLast? with
    | none =>
      simp [hacc, getCompatibleSet_empty_allow _ acc h1 h2]
    | some e =>
      obtain ⟨last, rfl⟩ := getLast?_map_some ex hl
      by_cases hterm : isTerminal last
      · simp [hterm]
      · rw [Bool.not_eq_true] at hterm
        simp [hterm, hacc, getCompatibleSet_empty_allow _ acc h1 h2]
  · obtain ⟨ex, hex, hfold⟩ := Option.map_eq_some'.mp hacc
    have hcollect := seqO_eq_some hex
    unfold getModifierSuggestions
    rw [hcollect]
    cases hl : (ex.map some).getLast? with
    | none =>
      simp [hacc, getCompatibleSet_empty_allow _ acc h1 h2]
    | some e =>
      obtain ⟨last, rfl⟩ := getLast?_map_some ex hl
      by_cases hterm : isTerminal last
      · simp [hterm]
      · rw [Bool.not_eq_true] at hterm
        simp [hterm, hacc, getCompatibleSet_empty_allow _ acc h1 h2]

/-- Witness for C3: the fresh rule accumulates no allow entries at either
position 0, so both suggestion lists come back empty. -/
theorem c3_allowCheck_witness :
    getFilterSuggestions mkRuleDefn 0 = some [] ∧
    getModifierSuggestions mkRuleDefn 0 = some [] := by
  constructor
  · exact c3_allowCheck.2.1 mkRuleDefn 0 mkConstraints rfl rfl rfl
  · exact c3_allowCheck.2.2 mkRuleDefn 0 mkConstraints rfl rfl rfl

/-! C4: the modifier accumulation order and merge semantics. -/

theorem hget_append (a b : Handling) (k : String) :
    hget (a ++ b) k = (hget b k).or (hget a k) := by
  unfold hget
  rw [List.reverse_append, List.find?_append]
  cases List.find? (fun p => p.1 = k) b.reverse <;> simp [Option.or]

/-- C4: `suggestModifiers` accumulates constraints exactly as the spec
words it — identity accumulator, then the actuator's constraints, then the
sensor's, then each existing modifier's in placement order up to the
insertion index — and in a merge the provides/requires/allow/disallow
lists are appended (duplicates kept) while `handling` keys are resolved
last-writer-wins, the later source shadowing the earlier one per key. -/
theorem c4_modifierAccum :
    (∀ (rule : RuleDefn) (index : Nat),
      modifierAccum rule index = specModifierAccum rule index) ∧
    (∀ (dst : CAcc) (s : Constraints),
      (mergeConstraints dst (some s)).provides = dst.provides ++ s.provides.getD [] ∧
      (mergeConstraints dst (some s)).requires = dst.requires ++ s.requires.getD [] ∧
      (mergeConstraints dst (some s)).allowTiles
        = dst.allowTiles ++ (s.allow.bind Allowance.tiles).getD [] ∧
      (mergeConstraints dst (some s)).allowCategories
        = dst.allowCategories ++ (s.allow.bind Allowance.categories).getD [] ∧
      (mergeConstraints dst (some s)).disallowTiles
        = dst.disallowTiles ++ (s.disallow.bind Allowance.tiles).getD [] ∧
      (mergeConstraints dst (some s)).disallowCategories
        = dst.disallowCategories ++ (s.disallow.bind Allowance.categories).getD []) ∧
    (∀ (dst : CAcc) (s : Constraints) (k : String),
      hget (mergeConstraints dst (some s)).handling k
        = (hget (s.handling.getD []) k).or (hget dst.handling k)) := by
  refine ⟨fun rule index => ?_, fun dst s => ⟨rfl, rfl, rfl, rfl, rfl, rfl⟩,
    fun dst s k => ?_⟩
  · simp only [modifierAccum, specModifierAccum, mergeAll, List.foldl_append,
      List.foldl_cons, List.foldl_nil, List.foldl_map]
  · exact hget_append dst.handling (s.handling.getD []) k

/-! C8: wrong-shaped fields decode as if absent. -/

theorem jget_jremove_self (o : JObj) (k : String) : jget (jremove o k) k = none := by
  unfold jget jremove
  induction o with
  | nil => rfl
  | cons p t ih =>
    rw [List.filter_cons]
    by_cases hp : p.1 = k
    · rw [if_neg (by simp [hp])]
      exact ih
    · rw [if_pos (by simp [hp]), List.find?_cons_of_neg _ (by simp [hp])]
      exact ih

theorem jget_jremove_ne (o : JObj) (k k2 : String) (h : k2 ≠ k) :
    jget (jremove o k) k2 = jget o k2 := by
  unfold jget jremove
  congr 1
  induction o with
  | nil => rfl
  | cons p t ih =>
    rw [List.filter_cons]
    by_cases hp : p.1 = k
    · rw [if_neg (by simp [hp])]
      rw [List.find?_cons_of_neg _ (by simp [hp]; exact fun hh => h hh.symm)]
      exact ih
    · rw [if_pos (by simp [hp])]
      by_cases hq : p.1 = k2
      · rw [List.find?_cons_of_pos _ (by simp [hq]), List.find?_cons_of_pos _ (by simp [hq])]
      · rw [List.find?_cons_of_neg _ (by simp [hq]), List.find?_cons_of_neg _ (by simp [hq])]
        exact ih

/-- C8: a present field of the wrong shape (non-string C/S/A, non-array
F/M) decodes to exactly the rule obtained with that field absent — the
wrong type is silently treated as a missing field, with no distinguishable
failure. -/
theorem c8_wrongShape (o : JObj) (v : JVal) :
    (jget o "C" = some v → v.isStr = false →
      RuleDefn.FromObj o = RuleDefn.FromObj (jremove o "C")) ∧
    (jget o "S" = some v → v.isStr = false →
      RuleDefn.FromObj o = RuleDefn.FromObj (jremove o "S")) ∧
    (jget o "A" = some v → v.isStr = false →
      RuleDefn.FromObj o = RuleDefn.FromObj (jremove o "A")) ∧
    (jget o "F" = some v → v.isArr = false →
      RuleDefn.FromObj o = RuleDefn.FromObj (jremove o "F")) ∧
    (jget o "M" = some v → v.isArr = false →
      RuleDefn.FromObj o = RuleDefn.FromObj (jremove o "M")) := by
  refine ⟨fun h hv => ?_, fun h hv => ?_, fun h hv => ?_, fun h hv => ?_, fun h hv => ?_⟩
  · simp only [RuleDefn.FromObj, jget_jremove_self, jget_jremove_ne o "C" "S" (by decide),
      jget_jremove_ne o "C" "A" (by decide), jget_jremove_ne o "C" "F" (by decide),
      jget_jremove_ne o "C" "M" (by decide), h]
    cases v <;> first | rfl | simp [JVal.isStr] at hv
  · simp only [RuleDefn.FromObj, jget_jremove_self, jget_jremove_ne o "S" "C" (by decide),
      jget_jremove_ne o "S" "A" (by decide), jget_jremove_ne o "S" "F" (by decide),
      jget_jremove_ne o "S" "M" (by decide), h]
    cases v <;> first | rfl | simp [JVal.isStr] at hv
  · simp only [RuleDefn.FromObj, jget_jremove_self, jget_jremove_ne o "A" "C" (by decide),
      jget_jremove_ne o "A" "S" (by decide), jget_jremove_ne o "A" "F" (by decide),
      jget_jremove_ne o "A" "M" (by decide), h]
    cases v <;> first | rfl | simp [JVal.isStr] at hv
  · simp only [RuleDefn.FromObj, jget_jremove_self, jget_jremove_ne o "F" "C" (by decide),
      jget_jremove_ne o "F" "S" (by decide), jget_jremove_ne o "F" "A" (by decide),
      jget_jremove_ne o "F" "M" (by decide), h]
    cases v <;> first | rfl | simp [JVal.isArr] at hv
  · simp only [RuleDefn.FromObj, jget_jremove_self, jget_jremove_ne o "M" "C" (by decide),
      jget_jremove_ne o "M" "S" (by decide), jget_jremove_ne o "M" "A" (by decide),
      jget_jremove_ne o "M" "F" (by decide), h]
    cases v <;> first | rfl | simp [JVal.isArr] at hv

/-- Witness for C8 on a record whose five fields are all wrong-shaped. -/
theorem c8_wrongShape_witness :
    RuleDefn.FromObj wrongShapedObj = RuleDefn.FromObj (jremove wrongShapedObj "C") ∧
    RuleDefn.FromObj wrongShapedObj = RuleDefn.FromObj (jremove wrongShapedObj "S") ∧
    RuleDefn.FromObj wrongShapedObj = RuleDefn.FromObj (jremove wrongShapedObj "A") ∧
    RuleDefn.FromObj wrongShapedObj = RuleDefn.FromObj (jremove wrongShapedObj "F") ∧
    RuleDefn.FromObj wrongShapedObj = RuleDefn.FromObj (jremove wrongShapedObj "M") :=
  ⟨(c8_wrongShape wrongShapedObj (.bool true)).1 rfl rfl,
   (c8_wrongShape wrongShapedObj (.num 3)).2.1 rfl rfl,
   (c8_wrongShape wrongShapedObj .null).2.2.1 rfl rfl,
   (c8_wrongShape wrongShapedObj (.str "x")).2.2.2.1 rfl rfl,
   (c8_wrongShape wrongShapedObj (.obj [])).2.2.2.2 rfl rfl⟩

/-! C2: which keys the rule record carries. -/

theorem jget_append (a b : JObj) (k : String) :
    jget (a ++ b) k = (jget a k).or (jget b k) := by
  unfold jget
  rw [List.find?_append]
  cases List.find? (fun p => p.1 = k) a <;> simp [Option.or]

theorem jget_condEntries (r : RuleDefn) (k : String) :
    jget (condEntries r) k
      = if k = "C" ∧ r.condition ≠ "" then some (JVal.str r.condition) else none := by
  by_cases hc : r.condition = "" <;> by_cases hk : k = "C" <;>
    simp [condEntries, jget, hc, hk, List.find?, eq_comm]

theorem jget_sensorEntries (r : RuleDefn) (k : String) :
    jget (sensorEntries r) k
      = if k = "S" then
          (match r.sensor with
           | some t => if t.tid = "" then none else some (JVal.str t.tid)
           | none => none)
        else none := by
  cases hs : r.sensor with
  | none => by_cases hk : k = "S" <;> simp [sensorEntries, jget, hs, hk]
  | some t =>
    by_cases ht : t.tid = "" <;> by_cases hk : k = "S" <;>
      simp [sensorEntries, jget, hs, ht, hk, List.find?, eq_comm]

theorem jget_actuatorEntries (r : RuleDefn) (k : String) :
    jget (actuatorEntries r) k
      = if k = "A" then
          (match r.actuator with
           | some t => if t.tid = "" then none else some (JVal.str t.tid)
           | none => none)
        else none := by
  cases hs : r.actuator with
  | none => by_cases hk : k = "A" <;> simp [actuatorEntries, jget, hs, hk]
  | some t =>
    by_cases ht : t.tid = "" <;> by_cases hk : k = "A" <;>
      simp [actuatorEntries, jget, hs, ht, hk, List.find?, eq_comm]

theorem jget_chainEntries (key : String) (ts : List TileDefn) (k : String) :
    jget (chainEntries key ts) k
      = if k = key ∧ ¬ts.isEmpty then
          some (JVal.arr (ts.map (fun t => JVal.str t.tid)))
        else none := by
  by_cases he : ts.isEmpty <;> by_cases hk : k = key <;>
    simp [chainEntries, jget, he, hk, List.find?, eq_comm]

/-- C2 (amended): the rule record carries `C` exactly when the condition
string is non-empty — in particular the default `"RC0"` is emitted, not
omitted — carries `S`/`A` exactly when the sensor/actuator is present with
a non-empty tid, and carries `F`/`M` exactly when the respective chain is
non-empty. -/
theorem c2_ruleRecordKeys (r : RuleDefn) (fs ms : List TileDefn)
    (hf : seqO r.filters = some fs) (hm : seqO r.modifiers = some ms) :
    r.toObj = some (ruleEntries r fs ms) ∧
    jget (ruleEntries r fs ms) "C"
      = (if r.condition = "" then none else some (JVal.str r.condition)) ∧
    jget (ruleEntries r fs ms) "S"
      = (match r.sensor with
         | some t => if t.tid = "" then none else some (JVal.str t.tid)
         | none => none) ∧
    jget (ruleEntries r fs ms) "A"
      = (match r.actuator with
         | some t => if t.tid = "" then none else some (JVal.str t.tid)
         | none => none) ∧
    jget (ruleEntries r fs ms) "F"
      = (if fs.isEmpty then none
         else some (JVal.arr (fs.map (fun t => JVal.str t.tid)))) ∧
    jget (ruleEntries r fs ms) "M"
      = (if ms.isEmpty then none
         else some (JVal.arr (ms.map (fun t => JVal.str t.tid)))) := by
  refine ⟨by simp [RuleDefn.toObj, hf, hm], ?_, ?_, ?_, ?_, ?_⟩ <;>
    simp [ruleEntries, jget_append, jget_condEntries, jget_sensorEntries,
      jget_actuatorEntries, jget_chainEntries, Option.or_none]

/-- Counterexample to C2 as stated: the freshly constructed rule has the
default condition `"RC0"`, yet its record still carries the `C` key. -/
theorem c2_counterexample :
    mkRuleDefn.condition = RuleCondition.DEFAULT ∧
    mkRuleDefn.toObj = some [("C", JVal.str "RC0")] ∧
    jget [("C", JVal.str "RC0")] "C" = some (JVal.str "RC0") :=
  ⟨rfl, rfl, rfl⟩

/-- Witness for C2: the fresh rule encodes with `C` present and `S`
absent. -/
theorem c2_ruleRecordKeys_witness :
    mkRuleDefn.toObj = some (ruleEntries mkRuleDefn [] []) ∧
    jget (ruleEntries mkRuleDefn [] []) "C" = some (JVal.str "RC0") ∧
    jget (ruleEntries mkRuleDefn [] []) "S" = none := by
  have h := c2_ruleRecordKeys mkRuleDefn [] [] rfl rfl
  exact ⟨h.1, by simpa using h.2.1, by simpa using h.2.2.1⟩

/-! C1: the round-trip law. -/

theorem chainOk_seq (db : List TileDefn) :
    ∀ (l : List (Option TileDefn)), l.all (entryOk db) = true →
      ∃ ts : List TileDefn, seqO l = some ts ∧ l = ts.map some ∧
        ∀ t ∈ ts, findTile db t.tid = some t := by
  intro l
  induction l with
  | nil => exact fun _ => ⟨[], rfl, rfl, by simp⟩
  | cons e rest ih =>
    intro h
    rw [List.all_cons, Bool.and_eq_true] at h
    obtain ⟨ts, hseq, hmap, hres⟩ := ih h.2
    cases e with
    | none => simp [entryOk] at h
    | some t =>
      have ht : findTile db t.tid = some t := by
        have := h.1
        simpa [entryOk] using this
      refine ⟨t :: ts, by simp [seqO, hseq], by simp [hmap], ?_⟩
      intro u hu
      rcases List.mem_cons.mp hu with rfl | hu
      · exact ht
      · exact hres u hu

theorem sensors_tid_ne_empty : ∀ t ∈ sensorsList, t.tid ≠ "" := by decide

theorem actuators_tid_ne_empty : ∀ t ∈ actuatorsList, t.tid ≠ "" := by decide

theorem findTile_mem {db : List TileDefn} {key : String} {t : TileDefn}
    (h : findTile db key = some t) : t ∈ db :=
  List.mem_of_find?_eq_some h

theorem decode_chain (db : List TileDefn) (ts : List TileDefn)
    (hres : ∀ t ∈ ts, findTile db t.tid = some t) :
    (ts.map (fun t => JVal.str t.tid)).map (fun v => lookupTileV db v) = ts.map some := by
  rw [List.map_map]
  exact List.map_congr_left (fun t ht => by simp [lookupTileV, Function.comp, hres t ht])

theorem ruleRoundTrip (r : RuleDefn) (h : ruleValid r = true) :
    r.toObj.map RuleDefn.FromObj = some r := by
  rw [ruleValid, Bool.and_eq_true, ruleRefsOk, Bool.and_eq_true, Bool.and_eq_true,
    Bool.and_eq_true] at h
  obtain ⟨hcond, ⟨⟨hsens, hact⟩, hfilt⟩, hmod⟩ := h
  rw [decide_eq_true_iff] at hcond
  obtain ⟨fs, hfseq, hfmap, hfres⟩ := chainOk_seq filtersList r.filters hfilt
  obtain ⟨ms, hmseq, hmmap, hmres⟩ := chainOk_seq modifiersList r.modifiers hmod
  have htoObj : r.toObj = some (ruleEntries r fs ms) := by
    simp [RuleDefn.toObj, hfseq, hmseq]
  rw [htoObj]
  show some (RuleDefn.FromObj (ruleEntries r fs ms)) = some r
  congr 1
  have eC : jget (ruleEntries r fs ms) "C" = some (JVal.str r.condition) := by
    simp [ruleEntries, jget_append, jget_condEntries, jget_sensorEntries,
      jget_actuatorEntries, jget_chainEntries, Option.or_none, hcond]
  have eS : jget (ruleEntries r fs ms) "S"
      = (match r.sensor with
         | some t => if t.tid = "" then none else some (JVal.str t.tid)
         | none => none) := by
    simp [ruleEntries, jget_append, jget_condEntries, jget_sensorEntries,
      jget_actuatorEntries, jget_chainEntries, Option.or_none]
  have eA : jget (ruleEntries r fs ms) "A"
      = (match r.actuator with
         | some t => if t.tid = "" then none else some (JVal.str t.tid)
         | none => none) := by
    simp [ruleEntries, jget_append, jget_condEntries, jget_sensorEntries,
      jget_actuatorEntries, jget_chainEntries, Option.or_none]
  have eF : jget (ruleEntries r fs ms) "F"
      = (if fs.isEmpty then none
         else some (JVal.arr (fs.map (fun t => JVal.str t.tid)))) := by
    simp [ruleEntries, jget_append, jget_condEntries, jget_sensorEntries,
      jget_actuatorEntries, jget_chainEntries, Option.or_none]
  have eM : jget (ruleEntries r fs ms) "M"
      = (if ms.isEmpty then none
         else some (JVal.arr (ms.map (fun t => JVal.str t.tid)))) := by
    simp [ruleEntries, jget_append, jget_condEntries, jget_sensorEntries,
      jget_actuatorEntries, jget_chainEntries, Option.or_none]
  unfold RuleDefn.FromObj
  rw [eC, eS, eA, eF, eM]
  rcases r with ⟨c, s, a, f, m⟩
  simp only [RuleDefn.mk.injEq]
  refine ⟨by trivial, ?_, ?_, ?_, ?_⟩
  · cases hs : s with
    | none => rfl
    | some t =>
      have ht : findTile sensorsList t.tid = some t := by
        simpa [slotOk, hs] using hsens
      have htid : t.tid ≠ "" := sensors_tid_ne_empty t (findTile_mem ht)
      simp [htid, ht]
  · cases ha2 : a with
    | none => rfl
    | some t =>
      have ht : findTile actuatorsList t.tid = some t := by
        simpa [slotOk, ha2] using hact
      have htid : t.tid ≠ "" := actuators_tid_ne_empty t (findTile_mem ht)
      simp [htid, ht]
  · have hf2 : f = List.map some fs := hfmap
    by_cases he : fs.isEmpty
    · rw [if_pos he]
      simp only [List.isEmpty_eq_true] at he
      simp [hf2, he]
    · rw [if_neg he, hf2]
      exact decode_chain filtersList fs hfres
  · have hm2 : m = List.map some ms := hmmap
    by_cases he : ms.isEmpty
    · rw [if_pos he]
      simp only [List.isEmpty_eq_true] at he
      simp [hm2, he]
    · rw [if_neg he, hm2]
      exact decode_chain modifiersList ms hmres

theorem pageRulesRoundTrip :
    ∀ rs : List RuleDefn, rs.all ruleValid = true →
      ∃ objs : List JObj, seqO (rs.map RuleDefn.toObj) = some objs ∧
        objs.map RuleDefn.FromObj = rs := by
  intro rs
  induction rs with
  | nil => exact fun _ => ⟨[], rfl, rfl⟩
  | cons r rest ih =>
    intro h
    rw [List.all_cons, Bool.and_eq_true] at h
    obtain ⟨objs, hseq, hdec⟩ := ih h.2
    obtain ⟨o, ho, hfo⟩ := Option.map_eq_some'.mp (ruleRoundTrip r h.1)
    exact ⟨o :: objs, by simp [seqO, ho, hseq], by simp [hfo, hdec]⟩

theorem pageRoundTrip (p : PageDefn) (h : pageValid p = true) :
    p.toObj.bind PageDefn.FromObj = some p := by
  obtain ⟨objs, hseq, hdec⟩ := pageRulesRoundTrip p.rules h
  have htoObj : p.toObj
      = some (if objs.isEmpty then [] else [("R", JVal.arr (objs.map JVal.obj))]) := by
    simp [PageDefn.toObj, hseq]
  rw [htoObj, Option.some_bind]
  by_cases he : objs.isEmpty
  · rw [if_pos he]
    simp only [List.isEmpty_eq_true] at he
    have hrules : p.rules = [] := by rw [← hdec, he]; rfl
    have hp : p = { rules := [] } := by
      obtain ⟨rules⟩ := p
      simpa using hrules
    rw [hp]
    rfl
  · rw [if_neg he]
    have hR : jget [("R", JVal.arr (objs.map JVal.obj))] "R"
        = some (JVal.arr (objs.map JVal.obj)) := by
      simp [jget, List.find?]
    simp only [PageDefn.FromObj, hR]
    have hseq2 : seqO ((objs.map JVal.obj).map RuleDefn.FromObjV)
        = some (objs.map RuleDefn.FromObj) := by
      rw [List.map_map]
      have hcomp : objs.map (RuleDefn.FromObjV ∘ JVal.obj)
          = (objs.map RuleDefn.FromObj).map some := by
        rw [List.map_map]
        rfl
      rw [hcomp, seqO_map_some]
    rw [hseq2, hdec]
    rfl

theorem brainPagesRoundTrip :
    ∀ ps : List PageDefn, ps.all pageValid = true →
      ∃ objs : List JObj, seqO (ps.map PageDefn.toObj) = some objs ∧
        objs.map PageDefn.FromObj = ps.map some := by
  intro ps
  induction ps with
  | nil => exact fun _ => ⟨[], rfl, rfl⟩
  | cons p rest ih =>
    intro h
    rw [List.all_cons, Bool.and_eq_true] at h
    obtain ⟨objs, hseq, hdec⟩ := ih h.2
    have hbind := pageRoundTrip p h.1
    cases ho : p.toObj with
    | none => rw [ho] at hbind; simp at hbind
    | some o =>
      rw [ho] at hbind
      exact ⟨o :: objs, by simp [seqO, ho, hseq],
        by simpa [hdec] using hbind⟩

theorem brainRoundTrip (b : BrainDefn) (h : brainValid b = true) :
    b.toObj.bind BrainDefn.FromObj = some b := by
  obtain ⟨objs, hseq, hdec⟩ := brainPagesRoundTrip b.pages h
  have htoObj : b.toObj = some [("P", JVal.arr (objs.map JVal.obj))] := by
    simp [BrainDefn.toObj, hseq]
  rw [htoObj, Option.some_bind]
  have hP : jget [("P", JVal.arr (objs.map JVal.obj))] "P"
      = some (JVal.arr (objs.map JVal.obj)) := by
    simp [jget, List.find?]
  simp only [BrainDefn.FromObj, hP]
  have hseq2 : seqO ((objs.map JVal.obj).map PageDefn.FromObjV)
      = some b.pages := by
    rw [List.map_map]
    have hcomp : objs.map (PageDefn.FromObjV ∘ JVal.obj)
        = b.pages.map some := by
      have : objs.map (PageDefn.FromObjV ∘ JVal.obj)
          = objs.map PageDefn.FromObj := rfl
      rw [this, hdec]
    rw [hcomp, seqO_map_some]
  rw [hseq2]
  rfl

/-- C1 (amended): for rules, pages and brains whose tile references all
resolve to their catalog entries and whose rules' condition strings are
non-empty, decoding the encoding succeeds and reproduces the value
structurally. -/
theorem c1_roundTrip :
    (∀ r : RuleDefn, ruleValid r = true → r.toObj.map RuleDefn.FromObj = some r) ∧
    (∀ p : PageDefn, pageValid p = true → p.toObj.bind PageDefn.FromObj = some p) ∧
    (∀ b : BrainDefn, brainValid b = true → b.toObj.bind BrainDefn.FromObj = some b) :=
  ⟨ruleRoundTrip, pageRoundTrip, brainRoundTrip⟩

/-- Counterexample to C1 as stated: a brain whose only rule references no
tiles at all (so every referenced identifier trivially exists in the
catalog) but carries the empty condition string; encoding drops the falsy
`C` key, decoding restores the default `"RC0"`, and the round trip fails. -/
theorem c1_counterexample :
    emptyConditionBrain.pages.all (fun p => p.rules.all ruleRefsOk) = true ∧
    emptyConditionBrain.toObj.bind BrainDefn.FromObj ≠ some emptyConditionBrain := by
  constructor
  · decide
  · decide

/-- Witness for C1 on a 5-page brain holding a fully-populated rule. -/
theorem c1_roundTrip_witness :
    brainValid catalogBrain = true ∧
    catalogBrain.toObj.bind BrainDefn.FromObj = some catalogBrain := by
  constructor
  · decide
  · exact c1_roundTrip.2.2 catalogBrain (by decide)

end kodu
